import Mathlib

/-!
Shallow embedding of `src/path_normalize.rs` (platform-independent path
normalization).  Paths are modelled as strings over a Unix-style rendering
(`/`-separated components); the Windows-only reserved-device-name table is
embedded as the list `RESERVED_NAMES`, so the model captures the branch of
`is_reserved_path` that is compiled on Windows.  The filesystem is an
abstract oracle (`FileSystem`): `fs::canonicalize` becomes a field
`canonicalize : String → Except IoError String`, and `Path::exists`-style
primitives (which the code never calls) become a field `pathExists`, so that
non-use of existence checks is expressible.  `dunce::simplified` is the
identity on non-Windows platforms, and is embedded as the identity.
-/

/-- Error kinds of `std::io::Error` that the code distinguishes:
`e.kind() == std::io::ErrorKind::NotFound` versus anything else. -/
inductive ErrorKind where
  | notFound
  | permissionDenied
  | other
deriving DecidableEq, Repr

/-- Model of `std::io::Error`: only its kind is observable to the code. -/
structure IoError where
  kind : ErrorKind
deriving DecidableEq, Repr

/-- Path components, mirroring `std::path::Component` for a Unix-style
rendering (no Windows `Prefix` component in this model). -/
inductive Component where
  | rootDir
  | curDir
  | parentDir
  | normal (s : String)
deriving DecidableEq, Repr

/-- Textual form of a component, mirroring `Component::as_os_str`. -/
def componentStr : Component → String
  | Component.rootDir => "/"
  | Component.curDir => "."
  | Component.parentDir => ".."
  | Component.normal s => s

/-- ASCII-only uppercase fold of one character, as in Rust's
`u8::to_ascii_uppercase`. -/
def asciiUpperChar (c : Char) : Char :=
  if 'a' ≤ c ∧ c ≤ 'z' then Char.ofNat (c.toNat - 32) else c

/-- `str::to_ascii_uppercase`: ASCII-only uppercase fold of a string. -/
def asciiUpper (s : String) : String :=
  String.mk (s.data.map asciiUpperChar)

/-- The `RESERVED_NAMES` table from the source (Windows device names). -/
def RESERVED_NAMES : List String :=
  ["AUX", "NUL", "PRN", "CON", "COM1", "COM2", "COM3", "COM4", "COM5", "COM6",
   "COM7", "COM8", "COM9", "LPT1", "LPT2", "LPT3", "LPT4", "LPT5", "LPT6",
   "LPT7", "LPT8", "LPT9"]

/-- Embedding of `is_reserved_path`: exact, case-insensitive comparison of the
whole path text to the reserved names (the `cfg(windows)` branch; on other
platforms the function is constantly `false`). -/
def is_reserved_path (path : String) : Bool :=
  RESERVED_NAMES.contains (asciiUpper path)

/-- Split a character list on `'/'` (used to parse path components). -/
def splitOnSlash : List Char → List (List Char)
  | [] => [[]]
  | c :: rest =>
    let r := splitOnSlash rest
    if c = '/' then [] :: r
    else
      match r with
      | [] => [[c]]
      | s :: ss => (c :: s) :: ss

/-- Turn the non-empty `/`-separated segments of a path into components,
mirroring `std::path::Path::components` on Unix: `.` segments are dropped
except at the very beginning of a (rootless) path, `..` becomes `ParentDir`,
anything else a `Normal` segment.  `leading` records whether we are still at
the beginning of the path. -/
def segComponents : List (List Char) → Bool → List Component
  | [], _ => []
  | seg :: rest, leading =>
    if seg = ['.'] then
      (if leading then [Component.curDir] else []) ++ segComponents rest false
    else if seg = ['.', '.'] then
      Component.parentDir :: segComponents rest false
    else
      Component.normal (String.mk seg) :: segComponents rest false

/-- Embedding of `Path::components` (Unix rendering): a leading `/` yields
`RootDir`, then the non-empty segments are classified by `segComponents`. -/
def components (s : String) : List Component :=
  let segs := (splitOnSlash s.data).filter (fun seg => seg ≠ [])
  if s.data.head? = some '/' then
    Component.rootDir :: segComponents segs false
  else
    segComponents segs true

/-- Render a component list back to a path string (used to model
`PathBuf::pop`, which truncates to `Path::parent`). -/
def renderComponents (cs : List Component) : String :=
  match cs with
  | Component.rootDir :: rest => "/" ++ String.intercalate "/" (rest.map componentStr)
  | _ => String.intercalate "/" (cs.map componentStr)

/-- Embedding of `PathBuf::pop`: truncate to the parent path; a no-op on the
root (and on an empty path), where `Path::parent` is `None`. -/
def pathPop (pb : String) : String :=
  match components pb with
  | [] => pb
  | [Component.rootDir] => pb
  | cs => renderComponents cs.dropLast

/-- Embedding of `PathBuf::push` for the component arguments the code pushes:
pushing an absolute path (one starting with `/`, e.g. `RootDir`) replaces the
whole buffer; otherwise the component is appended after a separator. -/
def pathPush (pb : String) (c : Component) : String :=
  let s := componentStr c
  if s.data.head? = some '/' then s
  else if pb = "" then s
  else if pb.data.getLast? = some '/' then pb ++ s
  else pb ++ "/" ++ s

/-- Embedding of `dunce::simplified`: on non-Windows platforms (and on paths
without verbose `\\?\`-style decoration) it is the identity. -/
def simplified (p : String) : String := p

/-- The `NormalizeMode` enumeration; `Lexical` carries `#[default]`. -/
inductive NormalizeMode where
  | strict
  | hybrid
  | lexical
deriving DecidableEq, Repr

instance : Inhabited NormalizeMode := ⟨NormalizeMode.lexical⟩

/-- The `NormalizeOptions` struct: a single `mode` field; its derived
`Default` uses `NormalizeMode`'s default, `Lexical`. -/
structure NormalizeOptions where
  mode : NormalizeMode
deriving DecidableEq, Repr

instance : Inhabited NormalizeOptions := ⟨⟨NormalizeMode.lexical⟩⟩

/-- Abstract filesystem oracle.  `canonicalize` models `fs::canonicalize`
(which both resolves the input path and, on the fallback branch, resolves
`"."`); `pathExists` models existence-check primitives such as
`Path::exists`, which the code never invokes. -/
structure FileSystem where
  canonicalize : String → Except IoError String
  pathExists : String → Bool

/-- The body of the `for component in path.components()` loop: fold the
components over the canonicalized working directory, popping on `ParentDir`,
skipping `CurDir`, pushing everything else. -/
def lexicalResolve (base : String) (cs : List Component) : String :=
  cs.foldl
    (fun acc c =>
      match c with
      | Component.parentDir => pathPop acc
      | Component.curDir => acc
      | c => pathPush acc c)
    base

/-- Embedding of `normalize_path_with_options`. -/
def normalize_path_with_options (fs : FileSystem) (path : String)
    (options : NormalizeOptions) : Except IoError String :=
  if is_reserved_path path then Except.ok (asciiUpper path)
  else
    match fs.canonicalize path with
    | Except.ok pathbuf => Except.ok (simplified pathbuf)
    | Except.error e =>
      if e.kind = ErrorKind.notFound ∧ options.mode = NormalizeMode.strict then
        Except.error e
      else
        match fs.canonicalize "." with
        | Except.error e2 => Except.error e2
        | Except.ok cwd =>
          Except.ok (simplified (lexicalResolve cwd (components path)))

/-- Embedding of `normalize_path`: call with default options. -/
def normalize_path (fs : FileSystem) (path : String) : Except IoError String :=
  normalize_path_with_options fs path default

/-- Filesystem operations, for tracing which primitives a call performs. -/
inductive FsOp where
  | canonicalizeCall (arg : String)
  | existsCall (arg : String)
deriving DecidableEq, Repr

/-- Instrumented run of `normalize_path_with_options`: the same control flow,
returning both the sequence of filesystem operations performed and the
result. -/
def normalize_run (fs : FileSystem) (path : String)
    (options : NormalizeOptions) : List FsOp × Except IoError String :=
  if is_reserved_path path then ([], Except.ok (asciiUpper path))
  else
    match fs.canonicalize path with
    | Except.ok pathbuf =>
      ([FsOp.canonicalizeCall path], Except.ok (simplified pathbuf))
    | Except.error e =>
      if e.kind = ErrorKind.notFound ∧ options.mode = NormalizeMode.strict then
        ([FsOp.canonicalizeCall path], Except.error e)
      else
        match fs.canonicalize "." with
        | Except.error e2 =>
          ([FsOp.canonicalizeCall path, FsOp.canonicalizeCall "."],
           Except.error e2)
        | Except.ok cwd =>
          ([FsOp.canonicalizeCall path, FsOp.canonicalizeCall "."],
           Except.ok (simplified (lexicalResolve cwd (components path))))

/-- The ASCII fold fixes the separator character. -/
theorem asciiUpperChar_slash : asciiUpperChar '/' = '/' := by decide

/-- No reserved device name contains a path separator. -/
theorem reserved_no_slash : ∀ r ∈ RESERVED_NAMES, '/' ∉ r.data := by decide

/-- A path containing a separator is never a reserved device name: the
reserved-name check compares the whole text, and no reserved name contains a
separator. -/
theorem slash_not_reserved (s : String) (h : '/' ∈ s.data) :
    is_reserved_path s = false := by
  have hup : '/' ∈ (asciiUpper s).data := by
    show '/' ∈ s.data.map asciiUpperChar
    have := List.mem_map_of_mem asciiUpperChar h
    rwa [asciiUpperChar_slash] at this
  have hmem : asciiUpper s ∉ RESERVED_NAMES := fun hm => reserved_no_slash _ hm hup
  unfold is_reserved_path
  simpa using hmem

/-- A path whose text begins with the separator is never a reserved name. -/
theorem head_slash_not_reserved (s : String) (h : s.data.head? = some '/') :
    is_reserved_path s = false := by
  apply slash_not_reserved
  cases hd : s.data with
  | nil => rw [hd] at h; simp at h
  | cons a t =>
    rw [hd] at h
    simp only [List.head?_cons, Option.some.injEq] at h
    rw [h]
    exact List.mem_cons_self _ _

/-- Pushing a root component replaces the accumulated base, so the rest of
the fold is base-independent. -/
theorem lexicalResolve_root (b : String) (t : List Component) :
    lexicalResolve b (Component.rootDir :: t) = lexicalResolve "/" t := by
  show lexicalResolve (pathPush b Component.rootDir) t = lexicalResolve "/" t
  have : pathPush b Component.rootDir = "/" := rfl
  rw [this]

/-- C2: a path whose whole text, under the ASCII case fold, equals a reserved
device name makes `normalize_path_with_options` (for every mode and every
filesystem, hence without consulting canonicalization or lexical resolution)
and `normalize_path` return `Ok` of the uppercased literal text; and a
reserved name occurring only as an interior segment of a longer path (which
therefore contains a separator) never triggers the check. -/
theorem reserved_short_circuit (fs : FileSystem) (path : String)
    (opts : NormalizeOptions) (h : is_reserved_path path = true) :
    normalize_path_with_options fs path opts = Except.ok (asciiUpper path) ∧
    normalize_path fs path = Except.ok (asciiUpper path) ∧
    (∀ s : String, '/' ∈ s.data → is_reserved_path s = false) := by
  refine ⟨?_, ?_, fun s hs => slash_not_reserved s hs⟩ <;>
    simp [normalize_path, normalize_path_with_options, h]

/-- C2, witness: the concrete reserved name `"con"` short-circuits to
`Ok "CON"` under `Strict` mode even on a filesystem where every
canonicalization attempt fails, and `"./con"` is not reserved. -/
theorem reserved_short_circuit_witness :
    is_reserved_path "con" = true ∧
    is_reserved_path "./con" = false ∧
    normalize_path_with_options
      ⟨fun _ => Except.error ⟨ErrorKind.other⟩, fun _ => false⟩
      "con" ⟨NormalizeMode.strict⟩ = Except.ok "CON" := by
  refine ⟨by decide, by decide, ?_⟩
  have h := (reserved_short_circuit
    ⟨fun _ => Except.error ⟨ErrorKind.other⟩, fun _ => false⟩
    "con" ⟨NormalizeMode.strict⟩ (by decide)).1
  rw [show asciiUpper "con" = "CON" from by decide] at h
  exact h

/-- C3: for a non-reserved path whose canonicalization fails with kind
`NotFound`, `Strict` mode propagates that very error. -/
theorem strict_notfound_propagated (fs : FileSystem) (path : String)
    (e : IoError)
    (hr : is_reserved_path path = false)
    (hc : fs.canonicalize path = Except.error e)
    (hk : e.kind = ErrorKind.notFound) :
    normalize_path_with_options fs path ⟨NormalizeMode.strict⟩ =
      Except.error e := by
  simp [normalize_path_with_options, hr, hc, hk]

/-- C3, witness: a concrete filesystem on which `"missing"` does not
canonicalize yields the `NotFound` error under `Strict`. -/
theorem strict_notfound_propagated_witness :
    normalize_path_with_options
      ⟨fun _ => Except.error ⟨ErrorKind.notFound⟩, fun _ => false⟩
      "missing" ⟨NormalizeMode.strict⟩ =
      Except.error ⟨ErrorKind.notFound⟩ :=
  strict_notfound_propagated
    ⟨fun _ => Except.error ⟨ErrorKind.notFound⟩, fun _ => false⟩
    "missing" ⟨ErrorKind.notFound⟩ (by decide) rfl rfl

/-- C5: `Hybrid` mode and `Lexical` mode give exactly the same result on
every input path and every filesystem (the mode is consulted only in the
`NotFound`-and-`Strict` test). -/
theorem hybrid_eq_lexical (fs : FileSystem) (path : String) :
    normalize_path_with_options fs path ⟨NormalizeMode.hybrid⟩ =
      normalize_path_with_options fs path ⟨NormalizeMode.lexical⟩ := by
  by_cases hr : is_reserved_path path = true
  · simp [normalize_path_with_options, hr]
  · simp only [normalize_path_with_options, Bool.not_eq_true] at *
    rw [hr]
    cases hc : fs.canonicalize path with
    | ok p => rfl
    | error e => simp

/-- C6: `normalize_path` equals `normalize_path_with_options` with the
default options, and the default options carry mode `Lexical`. -/
theorem normalize_default_options (fs : FileSystem) (path : String) :
    normalize_path fs path = normalize_path_with_options fs path default ∧
    (default : NormalizeOptions).mode = NormalizeMode.lexical :=
  ⟨rfl, rfl⟩

/-- C1, counterexample: on a filesystem where canonicalizing `"x"` fails with
`PermissionDenied` (not `NotFound`) while the working directory resolves to
`"/r"`, `Strict`-mode normalization returns `Ok "/r/x"` — the lexical
fallback — instead of propagating the `PermissionDenied` error, refuting the
claim that non-`NotFound` failures are propagated unchanged in every mode. -/
theorem other_error_not_propagated_cex :
    (⟨fun s => if s = "." then Except.ok "/r"
               else Except.error ⟨ErrorKind.permissionDenied⟩,
      fun _ => false⟩ : FileSystem).canonicalize "x" =
        Except.error ⟨ErrorKind.permissionDenied⟩ ∧
    ErrorKind.permissionDenied ≠ ErrorKind.notFound ∧
    normalize_path_with_options
      ⟨fun s => if s = "." then Except.ok "/r"
                else Except.error ⟨ErrorKind.permissionDenied⟩,
       fun _ => false⟩ "x" ⟨NormalizeMode.strict⟩ = Except.ok "/r/x" ∧
    (Except.ok "/r/x" : Except IoError String) ≠
      Except.error ⟨ErrorKind.permissionDenied⟩ := by
  refine ⟨rfl, by decide, rfl, by simp⟩

/-- C1, amended: a canonicalization failure whose kind is not `NotFound` is
never propagated directly; in every mode the code falls through to the
lexical fallback, whose result (the resolved working directory with the
input's components folded over it, or the working-directory resolution
error) is returned instead. -/
theorem other_error_falls_back (fs : FileSystem) (path : String)
    (mode : NormalizeMode) (e : IoError)
    (hr : is_reserved_path path = false)
    (hc : fs.canonicalize path = Except.error e)
    (hk : e.kind ≠ ErrorKind.notFound) :
    normalize_path_with_options fs path ⟨mode⟩ =
      (match fs.canonicalize "." with
       | Except.error e2 => Except.error e2
       | Except.ok cwd =>
         Except.ok (simplified (lexicalResolve cwd (components path)))) := by
  have hp : ¬(e.kind = ErrorKind.notFound ∧ mode = NormalizeMode.strict) :=
    fun h => hk h.1
  simp [normalize_path_with_options, hr, hc, hp]

/-- C1, witness for the amended statement: the permission-denied failure on
`"x"` under `Strict` ends in the lexical fallback result `Ok "/r/x"`. -/
theorem other_error_falls_back_witness :
    normalize_path_with_options
      ⟨fun s => if s = "." then Except.ok "/r"
                else Except.error ⟨ErrorKind.permissionDenied⟩,
       fun _ => false⟩ "x" ⟨NormalizeMode.strict⟩ = Except.ok "/r/x" := by
  have h := other_error_falls_back
    ⟨fun s => if s = "." then Except.ok "/r"
              else Except.error ⟨ErrorKind.permissionDenied⟩,
     fun _ => false⟩ "x" NormalizeMode.strict
    ⟨ErrorKind.permissionDenied⟩ (by decide) rfl (by decide)
  rw [h]
  rfl

/-- C4: when a non-reserved path fails to canonicalize and the mode is
`Lexical` or `Hybrid`, the result is `Ok` of the simplification of the left
fold of the path's components over the canonicalized working directory
(`ParentDir` pops, `CurDir` is skipped, everything else is pushed), and the
pop is clamped at the root (a no-op there, never an error). -/
theorem lexical_fallback_fold (fs : FileSystem) (path cwd : String)
    (mode : NormalizeMode) (e : IoError)
    (hr : is_reserved_path path = false)
    (hc : fs.canonicalize path = Except.error e)
    (hm : mode = NormalizeMode.lexical ∨ mode = NormalizeMode.hybrid)
    (hcwd : fs.canonicalize "." = Except.ok cwd) :
    normalize_path_with_options fs path ⟨mode⟩ =
      Except.ok (simplified (lexicalResolve cwd (components path))) ∧
    pathPop "/" = "/" := by
  constructor
  · rcases hm with hm | hm <;> subst hm <;>
      simp [normalize_path_with_options, hr, hc, hcwd]
  · rfl

/-- C4, witness: with working directory `/home/user/project` and the
non-existent input `./src/../lib/mod.rs` under `Lexical` mode, the output is
`/home/user/project/lib/mod.rs`. -/
theorem lexical_fallback_fold_witness :
    normalize_path_with_options
      ⟨fun s => if s = "." then Except.ok "/home/user/project"
                else Except.error ⟨ErrorKind.notFound⟩, fun _ => false⟩
      "./src/../lib/mod.rs" ⟨NormalizeMode.lexical⟩ =
      Except.ok "/home/user/project/lib/mod.rs" := by
  have h := (lexical_fallback_fold
    ⟨fun s => if s = "." then Except.ok "/home/user/project"
              else Except.error ⟨ErrorKind.notFound⟩, fun _ => false⟩
    "./src/../lib/mod.rs" "/home/user/project" NormalizeMode.lexical
    ⟨ErrorKind.notFound⟩ (by decide) rfl (Or.inl rfl) rfl).1
  rw [show simplified (lexicalResolve "/home/user/project"
        (components "./src/../lib/mod.rs")) = "/home/user/project/lib/mod.rs"
      from by decide] at h
  exact h

/-- C7: on the lexical fallback branch (non-reserved path, canonicalization
failed, not the `NotFound`-under-`Strict` case), the call fails exactly when
the working directory itself cannot be canonicalized, and then it surfaces
that very error; when the working directory resolves, the fallback always
succeeds — no other step of lexical resolution can fail. -/
theorem lexical_fallback_error_iff_cwd (fs : FileSystem) (path : String)
    (mode : NormalizeMode) (e : IoError)
    (hr : is_reserved_path path = false)
    (hc : fs.canonicalize path = Except.error e)
    (hp : ¬(e.kind = ErrorKind.notFound ∧ mode = NormalizeMode.strict)) :
    (∀ e2 : IoError, fs.canonicalize "." = Except.error e2 →
      normalize_path_with_options fs path ⟨mode⟩ = Except.error e2) ∧
    (∀ cwd : String, fs.canonicalize "." = Except.ok cwd →
      normalize_path_with_options fs path ⟨mode⟩ =
        Except.ok (simplified (lexicalResolve cwd (components path)))) := by
  constructor <;> intro x hx <;>
    simp [normalize_path_with_options, hr, hc, hp, hx]

/-- C7, witness: with an unresolvable working directory, the fallback
surfaces the working-directory error; with a resolvable one, it succeeds. -/
theorem lexical_fallback_error_iff_cwd_witness :
    normalize_path_with_options
      ⟨fun s => if s = "." then Except.error ⟨ErrorKind.permissionDenied⟩
                else Except.error ⟨ErrorKind.notFound⟩, fun _ => false⟩
      "x" ⟨NormalizeMode.lexical⟩ =
      Except.error ⟨ErrorKind.permissionDenied⟩ :=
  (lexical_fallback_error_iff_cwd
    ⟨fun s => if s = "." then Except.error ⟨ErrorKind.permissionDenied⟩
              else Except.error ⟨ErrorKind.notFound⟩, fun _ => false⟩
    "x" NormalizeMode.lexical ⟨ErrorKind.notFound⟩
    (by decide) rfl (by decide)).1
    ⟨ErrorKind.permissionDenied⟩ rfl

/-- C8: for a non-reserved path that canonicalizes, under the platform
guarantees on `fs::canonicalize` (its output is absolute, free of `.` and
`..` components, and a fixed point of canonicalization), `normalize_path`
succeeds with the simplified canonical form — absolute, dot-free, and
unchanged by simplification — and is idempotent: normalizing the result
returns the result itself. -/
theorem normalize_idempotent_on_existing (fs : FileSystem) (p q : String)
    (hr : is_reserved_path p = false)
    (hc : fs.canonicalize p = Except.ok q)
    (habs : q.data.head? = some '/')
    (hcur : Component.curDir ∉ components q)
    (hpar : Component.parentDir ∉ components q)
    (hfix : fs.canonicalize q = Except.ok q) :
    normalize_path fs p = Except.ok q ∧
    normalize_path fs q = Except.ok q ∧
    (components q).head? = some Component.rootDir ∧
    Component.curDir ∉ components q ∧
    Component.parentDir ∉ components q ∧
    simplified q = q := by
  refine ⟨?_, ?_, ?_, hcur, hpar, rfl⟩
  · simp [normalize_path, normalize_path_with_options, hr, hc, simplified]
  · have hq : is_reserved_path q = false := head_slash_not_reserved q habs
    simp [normalize_path, normalize_path_with_options, hq, hfix, simplified]
  · simp [components, habs]

/-- C8, witness: on a filesystem where `"a"` canonicalizes to `"/x/a"` and
`"/x/a"` is a canonical fixed point, `normalize_path` returns `Ok "/x/a"`
and is idempotent there. -/
theorem normalize_idempotent_on_existing_witness :
    normalize_path
      ⟨fun s => if s = "a" then Except.ok "/x/a"
                else if s = "/x/a" then Except.ok "/x/a"
                else Except.error ⟨ErrorKind.notFound⟩, fun _ => false⟩
      "a" = Except.ok "/x/a" ∧
    normalize_path
      ⟨fun s => if s = "a" then Except.ok "/x/a"
                else if s = "/x/a" then Except.ok "/x/a"
                else Except.error ⟨ErrorKind.notFound⟩, fun _ => false⟩
      "/x/a" = Except.ok "/x/a" := by
  have h := normalize_idempotent_on_existing
    ⟨fun s => if s = "a" then Except.ok "/x/a"
              else if s = "/x/a" then Except.ok "/x/a"
              else Except.error ⟨ErrorKind.notFound⟩, fun _ => false⟩
    "a" "/x/a" (by decide) rfl (by decide) (by decide) (by decide) rfl
  exact ⟨h.1, h.2.1⟩

/-- C9: the result of `normalize_path_with_options` depends on the
filesystem only through `canonicalize` (so no existence-check primitive is
ever consulted); the instrumented run computes the same result, its
operation trace consists solely of `canonicalize` calls (never an existence
check), and for a non-reserved path the first operation performed is the
direct canonicalization of the input path itself — no check precedes it. -/
theorem no_existence_check (fs₁ fs₂ : FileSystem) (path : String)
    (opts : NormalizeOptions)
    (h : fs₁.canonicalize = fs₂.canonicalize) :
    normalize_path_with_options fs₁ path opts =
      normalize_path_with_options fs₂ path opts ∧
    (normalize_run fs₁ path opts).2 =
      normalize_path_with_options fs₁ path opts ∧
    (∀ op ∈ (normalize_run fs₁ path opts).1,
      ∃ a, op = FsOp.canonicalizeCall a) ∧
    (is_reserved_path path = false →
      (normalize_run fs₁ path opts).1.head? =
        some (FsOp.canonicalizeCall path)) := by
  refine ⟨by unfold normalize_path_with_options; rw [h], ?_⟩
  unfold normalize_run normalize_path_with_options
  by_cases hr : is_reserved_path path = true
  · simp [hr]
  · simp only [Bool.not_eq_true] at hr
    simp only [hr, Bool.false_eq_true, if_false]
    cases hc : fs₁.canonicalize path with
    | ok p =>
      refine ⟨rfl, ?_, fun _ => rfl⟩
      intro op hop
      simp only [List.mem_singleton] at hop
      exact ⟨path, hop⟩
    | error e =>
      dsimp only
      by_cases hke : e.kind = ErrorKind.notFound ∧
          opts.mode = NormalizeMode.strict
      · rw [if_pos hke, if_pos hke]
        refine ⟨rfl, ?_, fun _ => rfl⟩
        intro op hop
        simp only [List.mem_singleton] at hop
        exact ⟨path, hop⟩
      · rw [if_neg hke, if_neg hke]
        cases hw : fs₁.canonicalize "." with
        | ok cwd =>
          refine ⟨rfl, ?_, fun _ => rfl⟩
          intro op hop
          simp only [List.mem_cons, List.mem_singleton, List.not_mem_nil,
            or_false] at hop
          rcases hop with hop | hop
          · exact ⟨path, hop⟩
          · exact ⟨".", hop⟩
        | error e2 =>
          refine ⟨rfl, ?_, fun _ => rfl⟩
          intro op hop
          simp only [List.mem_cons, List.mem_singleton, List.not_mem_nil,
            or_false] at hop
          rcases hop with hop | hop
          · exact ⟨path, hop⟩
          · exact ⟨".", hop⟩

/-- C9, witness: two filesystems agreeing on `canonicalize` but with opposite
existence oracles normalize `"x"` identically. -/
theorem no_existence_check_witness :
    normalize_path_with_options
      ⟨fun _ => Except.error ⟨ErrorKind.notFound⟩, fun _ => false⟩
      "x" ⟨NormalizeMode.lexical⟩ =
    normalize_path_with_options
      ⟨fun _ => Except.error ⟨ErrorKind.notFound⟩, fun _ => true⟩
      "x" ⟨NormalizeMode.lexical⟩ :=
  (no_existence_check
    ⟨fun _ => Except.error ⟨ErrorKind.notFound⟩, fun _ => false⟩
    ⟨fun _ => Except.error ⟨ErrorKind.notFound⟩, fun _ => true⟩
    "x" ⟨NormalizeMode.lexical⟩ rfl).1

/-- C10: an absolute input (components starting with the root marker) that
reaches the lexical fallback normalizes independently of the working
directory: two filesystems that both fail to canonicalize the input (with
the same error) but resolve possibly different working directories produce
the same output, because pushing the root component replaces the
accumulated base. -/
theorem absolute_input_cwd_independent (fs₁ fs₂ : FileSystem) (path : String)
    (mode : NormalizeMode) (e : IoError) (cwd₁ cwd₂ : String)
    (habs : (components path).head? = some Component.rootDir)
    (hr : is_reserved_path path = false)
    (hc₁ : fs₁.canonicalize path = Except.error e)
    (hc₂ : fs₂.canonicalize path = Except.error e)
    (hp : ¬(e.kind = ErrorKind.notFound ∧ mode = NormalizeMode.strict))
    (hw₁ : fs₁.canonicalize "." = Except.ok cwd₁)
    (hw₂ : fs₂.canonicalize "." = Except.ok cwd₂) :
    normalize_path_with_options fs₁ path ⟨mode⟩ =
      normalize_path_with_options fs₂ path ⟨mode⟩ := by
  obtain ⟨t, ht⟩ : ∃ t, components path = Component.rootDir :: t := by
    cases hcs : components path with
    | nil => rw [hcs] at habs; simp at habs
    | cons a t =>
      rw [hcs] at habs
      simp only [List.head?_cons, Option.some.injEq] at habs
      exact ⟨t, by rw [habs]⟩
  simp [normalize_path_with_options, hr, hc₁, hc₂, hp, hw₁, hw₂, ht,
    lexicalResolve_root]

/-- C10, witness: the absolute non-existent input `/a/b` normalizes to the
same value under working directories `/c1` and `/c2`. -/
theorem absolute_input_cwd_independent_witness :
    normalize_path_with_options
      ⟨fun s => if s = "." then Except.ok "/c1"
                else Except.error ⟨ErrorKind.notFound⟩, fun _ => false⟩
      "/a/b" ⟨NormalizeMode.lexical⟩ =
    normalize_path_with_options
      ⟨fun s => if s = "." then Except.ok "/c2"
                else Except.error ⟨ErrorKind.notFound⟩, fun _ => false⟩
      "/a/b" ⟨NormalizeMode.lexical⟩ :=
  absolute_input_cwd_independent
    ⟨fun s => if s = "." then Except.ok "/c1"
              else Except.error ⟨ErrorKind.notFound⟩, fun _ => false⟩
    ⟨fun s => if s = "." then Except.ok "/c2"
              else Except.error ⟨ErrorKind.notFound⟩, fun _ => false⟩
    "/a/b" NormalizeMode.lexical ⟨ErrorKind.notFound⟩ "/c1" "/c2"
    (by decide) (by decide) rfl rfl (by decide) rfl rfl
